import Mathlib

/- Verification of the braintree-auto automation script (src/server.js):
   a shallow embedding of its row-processing orchestrator, stage race
   detector, result poller and CLI flag logic, with theorems checking the
   natural-language specification against the code. -/

/- ===== JS string primitives used by server.js ===== -/

/-- JS `String.prototype.trim`: drop leading and trailing whitespace. -/
def jsTrim (s : String) : String :=
  (((s.toList.dropWhile Char.isWhitespace).reverse.dropWhile Char.isWhitespace).reverse).asString

/-- JS `String.prototype.toLowerCase` (ASCII range, as applied to header names). -/
def jsToLower (s : String) : String := (s.toList.map Char.toLower).asString

/-- Auxiliary for whitespace-run collapsing; `prev` records whether the previous
character was whitespace (in which case the current run already emitted its space). -/
def collapseWsAux : Bool → List Char → List Char
  | _, [] => []
  | prev, c :: rest =>
    if c.isWhitespace then
      if prev then collapseWsAux true rest else ' ' :: collapseWsAux true rest
    else c :: collapseWsAux false rest

/-- JS `.replace(/\s+/g, ' ')`: collapse every whitespace run to a single space. -/
def collapseWs (s : String) : String := (collapseWsAux false s.toList).asString

/-- JS `.replace(/\D+/g, '')` (server.js lines 368, 408-409, 463): keep only digits. -/
def stripNonDigits (s : String) : String := (s.toList.filter Char.isDigit).asString

/-- JS `.slice(0, n)` on a string. -/
def jsSliceTo (s : String) (n : Nat) : String := (s.toList.take n).asString

/-- JS `.slice(n)` on a string. -/
def jsSliceFrom (s : String) (n : Nat) : String := (s.toList.drop n).asString

/-- Substring occurrence test on character lists (helper for JS `includes`). -/
def charsContain (pat : List Char) : List Char → Bool
  | [] => pat.isEmpty
  | c :: rest => pat.isPrefixOf (c :: rest) || charsContain pat rest

/-- JS `String.prototype.includes`. -/
def jsIncludes (s pat : String) : Bool := charsContain pat.toList s.toList

/- ===== Input rows (xlsx.utils.sheet_to_json with defval '') ===== -/

/-- One spreadsheet row as produced by `sheet_to_json` with `defval: ''`: an
ordered association list from header name to cell text (a JS object's own keys,
in insertion order; keys are unique in a real JS object). -/
abbrev Row := List (String × String)

/-- JS property read `row[k]`: `some v` when the key is present (even with an
empty-string value), `none` (JS `undefined`) otherwise. -/
def jsGet (row : Row) (k : String) : Option String :=
  (List.find? (fun kv => kv.1 == k) row).map (fun kv => kv.2)

/-- server.js line 353: `(row.STATUS ?? row.Status ?? row.status ?? '').toString().trim()`.
The nullish-coalescing chain takes the value of the first of the three exact
keys that is present, even when that value is the empty string. -/
def statusCell (row : Row) : String :=
  jsTrim (match jsGet row "STATUS" with
    | some v => v
    | none => match jsGet row "Status" with
      | some v => v
      | none => match jsGet row "status" with
        | some v => v
        | none => "")

/-- server.js line 360: `normalizeKey = (s) => String(s || '').trim().toLowerCase().replace(/\s+/g, ' ')`. -/
def normalizeKey (s : String) : String := collapseWs (jsToLower (jsTrim s))

/-- server.js line 361 (`normalizedRow`): lookup by normalized key. The `reduce`
building `normalizedRow` lets later keys overwrite earlier ones with the same
normalized form, so the last matching header wins; values are trimmed. -/
def normLookup (row : Row) (nk : String) : Option String :=
  (List.find? (fun kv => normalizeKey kv.1 == nk) row.reverse).map (fun kv => jsTrim kv.2)

/-- server.js lines 362-366 (`valueByHeaders`): first pass over the exact headers
(key present and value non-empty after trim), second pass over normalized
headers against the normalized row; empty string when both passes fail. -/
def valueByHeaders (row : Row) (headers : List String) : String :=
  match headers.findSome? (fun h => match jsGet row h with
    | some v => if jsTrim v != "" then some (jsTrim v) else none
    | none => none) with
  | some v => v
  | none =>
    match headers.findSome? (fun h => match normLookup row (normalizeKey h) with
      | some v => if v != "" then some v else none
      | none => none) with
    | some v => v
    | none => ""

/-- server.js lines 367-368: the row's CVV value stripped to digits. -/
def cvvDigitsEarly (row : Row) : String :=
  stripNonDigits (valueByHeaders row ["CVV", "Security Code", "CVV2"])

/- ===== Card number fragments and read-back correction ===== -/

/-- server.js line 408: `String(first4Raw).replace(/\D+/g, '').slice(0, 4)`. -/
def first4Digits (first4Raw : String) : String := jsSliceTo (stripNonDigits first4Raw) 4

/-- server.js line 409: `String(last12Raw).replace(/\D+/g, '').slice(0, 12)`. -/
def last12Digits (last12Raw : String) : String := jsSliceTo (stripNonDigits last12Raw) 12

/-- server.js line 464: the expected digit string, the concatenation of the two
digit-stripped, length-capped fragments. -/
def expectedDigitsOf (first4Raw last12Raw : String) : String :=
  first4Digits first4Raw ++ last12Digits last12Raw

/-- server.js lines 462-468: after typing the card number, read the field back,
strip its value to digits, and when that is shorter than the (non-empty)
expected digit string, type the missing suffix. `some suffix` is the corrective
typing performed; `none` means no corrective typing happens. -/
def readbackCorrection (typedFieldValue expectedDigits : String) : Option String :=
  let typedDigits := stripNonDigits typedFieldValue
  if expectedDigits != "" && decide (typedDigits.length < expectedDigits.length) then
    some (jsSliceFrom expectedDigits typedDigits.length)
  else none

/- ===== CLI flags ===== -/

/-- server.js line 27: `process.argv.includes('--agoda') ? 'agoda' : 'booking'`. -/
def BRAND (argv : List String) : String :=
  if argv.contains "--agoda" then "agoda" else "booking"

/-- server.js line 28: `hasFlag = (flag) => process.argv.includes(flag)`. -/
def hasFlag (argv : List String) (flag : String) : Bool := argv.contains flag

/-- server.js line 30:
`REVIEW_MODE = hasFlag('--review') || (BRAND === 'agoda' && !hasFlag('--no-review'))`. -/
def REVIEW_MODE (argv : List String) : Bool :=
  hasFlag argv "--review" || (BRAND argv == "agoda" && !hasFlag argv "--no-review")

/- ===== Stage race detector ===== -/

/-- Abstract remote-document trace: which selectors match and what text a
selector's element carries at each poll tick. This is the page-automation
surface the spec treats as an external collaborator; the orchestrator only
issues polls against it. -/
structure DomTrace where
  present : Nat → String → Bool
  textOf : Nat → String → String

/-- Payload of one stage passed to `raceStages`: a `selectors` stage
(`waitForAnySelector`, server.js lines 208-214) or a text stage
(`waitForText`, lines 216-228). -/
inductive StageCond where
  | selectors (sels : List String)
  | textContains (sel : String) (txt : String)
deriving DecidableEq

/-- A named stage, the unit `raceStages` operates on. -/
structure Stage where
  name : String
  cond : StageCond
deriving DecidableEq

/-- Truth of one stage condition at tick `t`: a `selectors` condition is
`sels.some(sel => document.querySelector(sel))` (line 210); a `textContains`
condition requires the element present with its trimmed textContent including
the text (lines 218-223). -/
def condTrue (dom : DomTrace) (t : Nat) : StageCond → Bool
  | .selectors sels => sels.any (fun sel => dom.present t sel)
  | .textContains sel txt => dom.present t sel && jsIncludes (jsTrim (dom.textOf t sel)) txt

/-- First poll tick strictly before the deadline at which the condition holds:
puppeteer's `waitForFunction` resolves at its first successful poll and rejects
once the timeout elapses. -/
def firstTrueTick (dom : DomTrace) (c : StageCond) (deadline : Nat) : Option Nat :=
  (List.range deadline).find? (fun t => condTrue dom t c)

/-- Modelled from the spec: the timeout rejection of one wait of the
page-automation capability (puppeteer's `waitForFunction`, not part of src/)
is, following the spec's error taxonomy ("carries the attempted condition set
and deadline"), modelled as carrying the condition that one wait polled and
the deadline it was given. -/
structure RaceTimeout where
  cond : StageCond
  deadline : Nat
deriving DecidableEq

/-- Settlement of a single stage's watcher (server.js lines 231-238): resolve at
the first true tick with the stage's name, else reject at the deadline with a
timeout carrying that stage's own condition. -/
def settleStage (dom : DomTrace) (deadline : Nat) (s : Stage) : Nat × Except RaceTimeout String :=
  match firstTrueTick dom s.cond deadline with
  | some t => (t, Except.ok s.name)
  | none => (deadline, Except.error ⟨s.cond, deadline⟩)

/-- JS `Promise.race` over settlement times: the earliest settlement wins and
ties are broken in favour of the earlier promise in the array. -/
def pickFirstMin {α : Type} : List (Nat × α) → Option (Nat × α)
  | [] => none
  | x :: xs =>
    match pickFirstMin xs with
    | none => some x
    | some y => if y.1 < x.1 then some y else some x

/-- server.js lines 230-241 (`raceStages`): race one watcher per stage; `none`
models the forever-pending `Promise.race([])` on an empty stage list. -/
def raceStages (dom : DomTrace) (stages : List Stage) (deadline : Nat) :
    Option (Except RaceTimeout String) :=
  (pickFirstMin (stages.map (settleStage dom deadline))).map (fun x => x.2)

/- ===== Result poller ===== -/

/-- Timeout error of `waitForStatusText` (server.js line 190), carrying the
timeout it was given. -/
structure StatusTimeout where
  timeoutTicks : Nat
deriving DecidableEq

/-- server.js lines 173-194 (`waitForStatusText`): poll the transaction-status
node once per tick (the 1s sleep is one tick); return the first non-empty
trimmed text; after the poll at tick `timeoutTicks` fails, the elapsed time
exceeds the timeout and the wait throws. `trace t` is the node's textContent
at tick `t`. -/
def waitForStatusText (trace : Nat → String) (timeoutTicks : Nat) : Except StatusTimeout String :=
  match (List.range (timeoutTicks + 1)).find? (fun t => jsTrim (trace t) != "") with
  | some t => Except.ok (jsTrim (trace t))
  | none => Except.error ⟨timeoutTicks⟩

/- ===== Row orchestrator ===== -/

/-- Run configuration fixed for one invocation (server.js lines 27-32). -/
structure Config where
  brand : String
  reviewMode : Bool
  statusWaitTicks : Nat

/-- Environment one row's page-automation calls run against. The Bool fields
say whether the corresponding awaited step succeeds (false = it throws, e.g. a
puppeteer timeout); the traces feed the two `waitForStatusText` attempts. -/
structure RowEnv where
  /-- `goToNewTransaction()` (server.js lines 315-337, called at 374). -/
  navOk : Bool
  /-- Enter-guard install plus the required merchant-account wait with its one
  retry (lines 377-398). -/
  criticalOk : Bool
  /-- The remaining form-fill interactions (lines 399-530). -/
  fillOk : Bool
  /-- Submission, the navigation race and the submit-page confirmation
  (lines 537-544). -/
  submitOk : Bool
  /-- Status text of the result node during the first poll attempt. -/
  statusTrace1 : Nat → String
  /-- Status text of the result node during the retry attempt. -/
  statusTrace2 : Nat → String
  /-- Return to the transactions list (lines 570-575; the wait at 570 is not
  wrapped in try/catch). -/
  returnOk : Bool

/-- Observable page/store interactions one row issues, in order. -/
inductive Event where
  | nav
  | fillGuard
  | fillFields
  | submit
  | pollStatus (attempt : Nat)
  | writeStatus (rowIdx : Nat) (value : String)
  | backToList
deriving DecidableEq

/-- Terminal outcome of one row (spec section 4.4's per-record state machine). -/
inductive RowOutcome where
  | skippedStatus
  | skippedInvalid
  | paused
  | completed
  | failed
deriving DecidableEq

/-- server.js lines 552-559: call `waitForStatusText` once; on timeout sleep
briefly and call it exactly once more, the retry's own timeout swallowed into
the empty string (`.catch(() => '')`). Returns (attempts made, statusText). -/
def pollStatusTwice (env : RowEnv) (timeoutTicks : Nat) : Nat × String :=
  match waitForStatusText env.statusTrace1 timeoutTicks with
  | Except.ok text => (1, text)
  | Except.error _ =>
    match waitForStatusText env.statusTrace2 timeoutTicks with
    | Except.ok text => (2, text)
    | Except.error _ => (2, "")

/-- server.js lines 349-577: one iteration of the row loop. Skip checks first
(lines 352-372), then navigation, guard/critical waits and form fill, then the
review-mode pause (lines 533-535) or submission, the two-attempt status poll,
the status write-back (line 561, write failures swallowed) and the best-effort
return to the list (line 570, whose wait can throw). -/
def processRow (cfg : Config) (env : RowEnv) (idx : Nat) (row : Row) : RowOutcome × List Event :=
  if statusCell row != "" then (RowOutcome.skippedStatus, [])
  else if (cvvDigitsEarly row).length < 3 then (RowOutcome.skippedInvalid, [])
  else if env.navOk = false then (RowOutcome.failed, [Event.nav])
  else if env.criticalOk = false then (RowOutcome.failed, [Event.nav, Event.fillGuard])
  else if env.fillOk = false then (RowOutcome.failed, [Event.nav, Event.fillGuard])
  else if cfg.reviewMode then (RowOutcome.paused, [Event.nav, Event.fillGuard, Event.fillFields])
  else if env.submitOk = false then
    (RowOutcome.failed, [Event.nav, Event.fillGuard, Event.fillFields, Event.submit])
  else
    let ps := pollStatusTwice env cfg.statusWaitTicks
    let evs :=
      if ps.1 = 1 then
        [Event.nav, Event.fillGuard, Event.fillFields, Event.submit,
         Event.pollStatus 1, Event.writeStatus idx ps.2]
      else
        [Event.nav, Event.fillGuard, Event.fillFields, Event.submit,
         Event.pollStatus 1, Event.pollStatus 2, Event.writeStatus idx ps.2]
    if env.returnOk then (RowOutcome.completed, evs ++ [Event.backToList])
    else (RowOutcome.failed, evs)

/-- server.js lines 349-587: the row loop from row index `k` on. A `failed` row
aborts the run (the error reaches the outer catch, exit code 1, lines 580-586);
a `paused` row suspends forever (`await new Promise(() => {})`, line 535), so
the process never exits (`none`); otherwise the loop continues and a completed
pass over all rows exits with code 0. Events are tagged with the row index that
issued them. -/
def runFrom (cfg : Config) (env : Nat → RowEnv) : Nat → List Row → Option Nat × List (Nat × Event)
  | _, [] => (some 0, [])
  | k, row :: rest =>
    let pr := processRow cfg (env k) k row
    let tagged := pr.2.map (fun e => (k, e))
    if pr.1 = RowOutcome.failed then (some 1, tagged)
    else if pr.1 = RowOutcome.paused then (none, tagged)
    else
      let r := runFrom cfg env (k + 1) rest
      (r.1, tagged ++ r.2)

/-- The whole run over the input rows (exit status, tagged event trace). -/
def runRows (cfg : Config) (env : Nat → RowEnv) (rows : List Row) : Option Nat × List (Nat × Event) :=
  runFrom cfg env 0 rows

/-- `o` lets the loop continue to the next row (not failed, not paused). -/
def outcomeOk (o : RowOutcome) : Prop :=
  o ≠ RowOutcome.failed ∧ o ≠ RowOutcome.paused

/- ===== Concrete data for witnesses and counterexamples ===== -/

/-- Environment where every page interaction succeeds and the status node is
hydrated immediately. -/
def envAllOk : Nat → RowEnv := fun _ =>
  { navOk := true, criticalOk := true, fillOk := true, submitOk := true,
    statusTrace1 := fun _ => "Submitted For Settlement",
    statusTrace2 := fun _ => "", returnOk := true }

/-- Environment where the status node never hydrates: both poll attempts time out. -/
def envNoStatus : Nat → RowEnv := fun _ =>
  { navOk := true, criticalOk := true, fillOk := true, submitOk := true,
    statusTrace1 := fun _ => "", statusTrace2 := fun _ => "", returnOk := true }

/-- Environment where navigation to the new-transaction page fails. -/
def envNavFail : Nat → RowEnv := fun _ =>
  { navOk := false, criticalOk := true, fillOk := true, submitOk := true,
    statusTrace1 := fun _ => "", statusTrace2 := fun _ => "", returnOk := true }

/-- Booking brand, auto-submit mode, small status-wait deadline. -/
def cfgBooking : Config := { brand := "booking", reviewMode := false, statusWaitTicks := 3 }

/-- Booking brand with review mode enabled. -/
def cfgBookingReview : Config := { brand := "booking", reviewMode := true, statusWaitTicks := 3 }

/-- A row that already carries a status. -/
def rowDone : Row := [("STATUS", "Settled"), ("CVV", "123")]

/-- A row with a two-digit CVV and empty status. -/
def rowShortCvv : Row := [("STATUS", ""), ("CVV", "12")]

/-- A fully valid input row (spec section 8's end-to-end record). -/
def rowValid : Row :=
  [("MAIDS", "acct_1"), ("Amount", "10.00"), ("Reservation ID", "R100"),
   ("Card first 4", "4111"), ("Card last 12", "111111111111"),
   ("Expiry", "12/2030"), ("CVV", "123")]

/-- Row whose exact key STATUS is present but empty while the exact key Status
holds a non-empty value: the nullish-coalescing chain stops at STATUS. -/
def rowShadowedStatus : Row := [("STATUS", ""), ("Status", "done"), ("CVV", "123")]

/-- Trace on which no selector is ever present. -/
def domNever : DomTrace := { present := fun _ _ => false, textOf := fun _ _ => "" }

/-- Trace where selector "#b" appears at tick 1 and "#a" only at tick 5. -/
def domBFirst : DomTrace :=
  { present := fun t sel => (sel == "#b" && decide (1 ≤ t)) || (sel == "#a" && decide (5 ≤ t)),
    textOf := fun _ _ => "" }

/-- Stage A of the spec's two-stage race example. -/
def stageA : Stage := { name := "A", cond := StageCond.selectors ["#a"] }

/-- Stage B of the spec's two-stage race example. -/
def stageB : Stage := { name := "B", cond := StageCond.selectors ["#b"] }

/-- Row with a status-like header that matches none of the three exact spellings. -/
def rowWeirdHeader : Row := [("StAtUs", "done"), ("CVV", "123")]

/-- The right-hand side of claim C9's iff, written from the claim's words: some
key among the three exact spellings holds a value that is non-empty after
trimming. -/
def claimStatusKeyNonEmpty (row : Row) : Bool :=
  ["STATUS", "Status", "status"].any (fun k => match jsGet row k with
    | some v => jsTrim v != ""
    | none => false)

/- ===== Helper lemmas ===== -/

theorem pickFirstMin_mem {α : Type} : ∀ (l : List (Nat × α)) (y : Nat × α),
    pickFirstMin l = some y → y ∈ l := by
  intro l
  induction l with
  | nil => intro y h; simp [pickFirstMin] at h
  | cons x xs ih =>
    intro y h
    simp only [pickFirstMin] at h
    cases hx : pickFirstMin xs with
    | none => rw [hx] at h; simp at h; simp [h]
    | some z =>
      rw [hx] at h
      have h2 : (if z.1 < x.1 then some z else some x) = some y := h
      by_cases hz : z.1 < x.1
      · rw [if_pos hz] at h2
        have hy : z = y := by injection h2
        exact List.mem_cons_of_mem x (hy ▸ ih z hx)
      · rw [if_neg hz] at h2
        have hy : x = y := by injection h2
        simp [← hy]

theorem pickFirstMin_head {α : Type} (x : Nat × α) (l : List (Nat × α))
    (h : ∀ y ∈ l, x.1 ≤ y.1) : pickFirstMin (x :: l) = some x := by
  simp only [pickFirstMin]
  cases hx : pickFirstMin l with
  | none => rfl
  | some z =>
    have hz := h z (pickFirstMin_mem l z hx)
    show (if z.1 < x.1 then some z else some x) = some x
    rw [if_neg (by omega)]

theorem pickFirstMin_strictMin {α : Type} :
    ∀ (pre : List (Nat × α)) (x : Nat × α) (post : List (Nat × α)),
    (∀ y ∈ pre, x.1 < y.1) → (∀ y ∈ post, x.1 < y.1) →
    pickFirstMin (pre ++ x :: post) = some x := by
  intro pre
  induction pre with
  | nil =>
    intro x post _ hpost
    exact pickFirstMin_head x post (fun y hy => Nat.le_of_lt (hpost y hy))
  | cons a pre ih =>
    intro x post hpre hpost
    have hrec := ih x post (fun y hy => hpre y (List.mem_cons_of_mem a hy)) hpost
    have ha : x.1 < a.1 := hpre a (List.mem_cons_self a pre)
    have hstep : pickFirstMin ((a :: pre) ++ x :: post) =
        (match pickFirstMin (pre ++ x :: post) with
         | none => some a
         | some y => if y.1 < a.1 then some y else some a) := rfl
    rw [hstep, hrec]
    show (if x.1 < a.1 then some x else some a) = some x
    rw [if_pos ha]

theorem firstTrueTick_some_spec {dom : DomTrace} {c : StageCond} {deadline t : Nat}
    (h : firstTrueTick dom c deadline = some t) :
    t < deadline ∧ condTrue dom t c = true := by
  unfold firstTrueTick at h
  refine ⟨List.mem_range.mp (List.mem_of_find?_eq_some h), ?_⟩
  have h2 := List.find?_some h
  simpa using h2

theorem firstTrueTick_none_of (dom : DomTrace) (c : StageCond) (deadline : Nat)
    (h : ∀ u, u < deadline → condTrue dom u c = false) :
    firstTrueTick dom c deadline = none := by
  unfold firstTrueTick
  apply List.find?_eq_none.mpr
  intro u hu
  simp [h u (List.mem_range.mp hu)]

theorem settleStage_ok {dom : DomTrace} {deadline : Nat} {s : Stage} {t : Nat}
    (h : firstTrueTick dom s.cond deadline = some t) :
    settleStage dom deadline s = (t, Except.ok s.name) := by
  unfold settleStage; rw [h]

theorem settleStage_timeout {dom : DomTrace} {deadline : Nat} {s : Stage}
    (h : firstTrueTick dom s.cond deadline = none) :
    settleStage dom deadline s = (deadline, Except.error ⟨s.cond, deadline⟩) := by
  unfold settleStage; rw [h]

theorem waitForStatusText_timeout (trace : Nat → String) (T : Nat)
    (h : ∀ u, u ≤ T → jsTrim (trace u) = "") :
    waitForStatusText trace T = Except.error ⟨T⟩ := by
  unfold waitForStatusText
  have hfind : (List.range (T + 1)).find? (fun t => jsTrim (trace t) != "") = none := by
    apply List.find?_eq_none.mpr
    intro u hu
    have hle : u ≤ T := Nat.lt_succ_iff.mp (List.mem_range.mp hu)
    simp [h u hle]
  rw [hfind]

theorem processRow_skipStatus (cfg : Config) (env : RowEnv) (idx : Nat) (row : Row)
    (hs : statusCell row ≠ "") :
    processRow cfg env idx row = (RowOutcome.skippedStatus, []) := by
  have hb : (statusCell row != "") = true := bne_iff_ne.mpr hs
  simp [processRow, hb]

theorem processRow_skipInvalid (cfg : Config) (env : RowEnv) (idx : Nat) (row : Row)
    (hs : statusCell row = "") (hc : (cvvDigitsEarly row).length < 3) :
    processRow cfg env idx row = (RowOutcome.skippedInvalid, []) := by
  simp [processRow, hs, hc]

theorem processRow_paused (cfg : Config) (env : RowEnv) (idx : Nat) (row : Row)
    (hrv : cfg.reviewMode = true) (hs : statusCell row = "")
    (hc : ¬(cvvDigitsEarly row).length < 3) (hnav : env.navOk = true)
    (hcrit : env.criticalOk = true) (hfill : env.fillOk = true) :
    processRow cfg env idx row =
      (RowOutcome.paused, [Event.nav, Event.fillGuard, Event.fillFields]) := by
  simp [processRow, hs, hc, hnav, hcrit, hfill, hrv]

theorem processRow_empty_status_not_skipStatus (cfg : Config) (env : RowEnv) (idx : Nat)
    (row : Row) (hs : statusCell row = "") :
    (processRow cfg env idx row).1 ≠ RowOutcome.skippedStatus := by
  simp only [processRow, hs]
  repeat' split
  all_goals simp_all

theorem processRow_writeStatus_idx (cfg : Config) (env : RowEnv) (idx : Nat) (row : Row)
    (j : Nat) (v : String)
    (h : Event.writeStatus j v ∈ (processRow cfg env idx row).2) : j = idx := by
  simp only [processRow] at h
  repeat' split at h
  all_goals simp_all

theorem processRow_bothTimeout (cfg : Config) (env : RowEnv) (idx : Nat) (row : Row)
    (hs : statusCell row = "") (hc : ¬(cvvDigitsEarly row).length < 3)
    (hnav : env.navOk = true) (hcrit : env.criticalOk = true) (hfill : env.fillOk = true)
    (hrv : cfg.reviewMode = false) (hsub : env.submitOk = true) (hret : env.returnOk = true)
    (h1 : ∀ u, u ≤ cfg.statusWaitTicks → jsTrim (env.statusTrace1 u) = "")
    (h2 : ∀ u, u ≤ cfg.statusWaitTicks → jsTrim (env.statusTrace2 u) = "") :
    processRow cfg env idx row =
      (RowOutcome.completed,
       [Event.nav, Event.fillGuard, Event.fillFields, Event.submit,
        Event.pollStatus 1, Event.pollStatus 2, Event.writeStatus idx "", Event.backToList]) := by
  have hps : pollStatusTwice env cfg.statusWaitTicks = (2, "") := by
    unfold pollStatusTwice
    rw [waitForStatusText_timeout env.statusTrace1 cfg.statusWaitTicks h1,
        waitForStatusText_timeout env.statusTrace2 cfg.statusWaitTicks h2]
  simp [processRow, hs, hc, hnav, hcrit, hfill, hrv, hsub, hret, hps]

theorem runFrom_cons_failed (cfg : Config) (env : Nat → RowEnv) (k : Nat) (row : Row)
    (rest : List Row) (h : (processRow cfg (env k) k row).1 = RowOutcome.failed) :
    runFrom cfg env k (row :: rest) =
      (some 1, (processRow cfg (env k) k row).2.map (fun e => (k, e))) := by
  simp only [runFrom]
  rw [if_pos h]

theorem runFrom_cons_paused (cfg : Config) (env : Nat → RowEnv) (k : Nat) (row : Row)
    (rest : List Row) (h : (processRow cfg (env k) k row).1 = RowOutcome.paused) :
    runFrom cfg env k (row :: rest) =
      (none, (processRow cfg (env k) k row).2.map (fun e => (k, e))) := by
  simp only [runFrom]
  rw [if_neg (by rw [h]; exact fun hcon => RowOutcome.noConfusion hcon), if_pos h]

theorem runFrom_cons_ok (cfg : Config) (env : Nat → RowEnv) (k : Nat) (row : Row)
    (rest : List Row) (h : outcomeOk (processRow cfg (env k) k row).1) :
    runFrom cfg env k (row :: rest) =
      ((runFrom cfg env (k + 1) rest).1,
       (processRow cfg (env k) k row).2.map (fun e => (k, e)) ++
         (runFrom cfg env (k + 1) rest).2) := by
  simp only [runFrom]
  rw [if_neg h.1, if_neg h.2]

theorem runFrom_tags_ge (cfg : Config) (env : Nat → RowEnv) :
    ∀ (rows : List Row) (k : Nat) (p : Nat × Event),
    p ∈ (runFrom cfg env k rows).2 → k ≤ p.1 := by
  intro rows
  induction rows with
  | nil => intro k p h; simp [runFrom] at h
  | cons row rest ih =>
    intro k p h
    by_cases hf : (processRow cfg (env k) k row).1 = RowOutcome.failed
    · rw [runFrom_cons_failed cfg env k row rest hf] at h
      rcases List.mem_map.mp h with ⟨e, he, rfl⟩
      exact Nat.le_refl k
    · by_cases hp : (processRow cfg (env k) k row).1 = RowOutcome.paused
      · rw [runFrom_cons_paused cfg env k row rest hp] at h
        rcases List.mem_map.mp h with ⟨e, he, rfl⟩
        exact Nat.le_refl k
      · rw [runFrom_cons_ok cfg env k row rest ⟨hf, hp⟩] at h
        rcases List.mem_append.mp h with h1 | h2
        · rcases List.mem_map.mp h1 with ⟨e, he, rfl⟩
          exact Nat.le_refl k
        · have := ih (k + 1) p h2
          omega

theorem runFrom_writeStatus_tag (cfg : Config) (env : Nat → RowEnv) :
    ∀ (rows : List Row) (k m j : Nat) (v : String),
    (m, Event.writeStatus j v) ∈ (runFrom cfg env k rows).2 → j = m := by
  intro rows
  induction rows with
  | nil => intro k m j v h; simp [runFrom] at h
  | cons row rest ih =>
    intro k m j v h
    by_cases hf : (processRow cfg (env k) k row).1 = RowOutcome.failed
    · rw [runFrom_cons_failed cfg env k row rest hf] at h
      rcases List.mem_map.mp h with ⟨e, he, heq⟩
      have hm : k = m := congrArg Prod.fst heq
      have hv : e = Event.writeStatus j v := congrArg Prod.snd heq
      rw [← hm]
      exact processRow_writeStatus_idx cfg (env k) k row j v (hv ▸ he)
    · by_cases hp : (processRow cfg (env k) k row).1 = RowOutcome.paused
      · rw [runFrom_cons_paused cfg env k row rest hp] at h
        rcases List.mem_map.mp h with ⟨e, he, heq⟩
        have hm : k = m := congrArg Prod.fst heq
        have hv : e = Event.writeStatus j v := congrArg Prod.snd heq
        rw [← hm]
        exact processRow_writeStatus_idx cfg (env k) k row j v (hv ▸ he)
      · rw [runFrom_cons_ok cfg env k row rest ⟨hf, hp⟩] at h
        rcases List.mem_append.mp h with h1 | h2
        · rcases List.mem_map.mp h1 with ⟨e, he, heq⟩
          have hm : k = m := congrArg Prod.fst heq
          have hv : e = Event.writeStatus j v := congrArg Prod.snd heq
          rw [← hm]
          exact processRow_writeStatus_idx cfg (env k) k row j v (hv ▸ he)
        · exact ih (k + 1) m j v h2

theorem runFrom_events_split (cfg : Config) (env : Nat → RowEnv) :
    ∀ (pre : List Row) (k : Nat) (row : Row) (post : List Row) (p : Nat × Event),
    p ∈ (runFrom cfg env k (pre ++ row :: post)).2 →
    p.1 ≠ k + pre.length ∨
      p.2 ∈ (processRow cfg (env (k + pre.length)) (k + pre.length) row).2 := by
  intro pre
  induction pre with
  | nil =>
    intro k row post p h
    simp only [List.nil_append, List.length_nil, Nat.add_zero] at h ⊢
    by_cases hf : (processRow cfg (env k) k row).1 = RowOutcome.failed
    · rw [runFrom_cons_failed cfg env k row post hf] at h
      rcases List.mem_map.mp h with ⟨e, he, rfl⟩
      exact Or.inr he
    · by_cases hp : (processRow cfg (env k) k row).1 = RowOutcome.paused
      · rw [runFrom_cons_paused cfg env k row post hp] at h
        rcases List.mem_map.mp h with ⟨e, he, rfl⟩
        exact Or.inr he
      · rw [runFrom_cons_ok cfg env k row post ⟨hf, hp⟩] at h
        rcases List.mem_append.mp h with h1 | h2
        · rcases List.mem_map.mp h1 with ⟨e, he, rfl⟩
          exact Or.inr he
        · have := runFrom_tags_ge cfg env post (k + 1) p h2
          exact Or.inl (by omega)
  | cons r pre ih =>
    intro k row post p h
    simp only [List.cons_append] at h
    simp only [List.length_cons]
    by_cases hf : (processRow cfg (env k) k r).1 = RowOutcome.failed
    · rw [runFrom_cons_failed cfg env k r (pre ++ row :: post) hf] at h
      rcases List.mem_map.mp h with ⟨e, he, rfl⟩
      exact Or.inl (by omega)
    · by_cases hp : (processRow cfg (env k) k r).1 = RowOutcome.paused
      · rw [runFrom_cons_paused cfg env k r (pre ++ row :: post) hp] at h
        rcases List.mem_map.mp h with ⟨e, he, rfl⟩
        exact Or.inl (by omega)
      · rw [runFrom_cons_ok cfg env k r (pre ++ row :: post) ⟨hf, hp⟩] at h
        rcases List.mem_append.mp h with h1 | h2
        · rcases List.mem_map.mp h1 with ⟨e, he, rfl⟩
          exact Or.inl (by omega)
        · rcases ih (k + 1) row post p h2 with hne | hin
          · exact Or.inl (by omega)
          · have heq : k + 1 + pre.length = k + (pre.length + 1) := by omega
            rw [heq] at hin
            exact Or.inr hin

theorem runFrom_stop (cfg : Config) (env : Nat → RowEnv) :
    ∀ (pre : List Row) (k : Nat) (row : Row) (post : List Row),
    (∀ i, ∀ hi : i < pre.length,
      outcomeOk (processRow cfg (env (k + i)) (k + i) (pre.get ⟨i, hi⟩)).1) →
    ¬ outcomeOk (processRow cfg (env (k + pre.length)) (k + pre.length) row).1 →
    (runFrom cfg env k (pre ++ row :: post)).1 =
      (if (processRow cfg (env (k + pre.length)) (k + pre.length) row).1 = RowOutcome.failed
       then some 1 else none) ∧
    ∀ p ∈ (runFrom cfg env k (pre ++ row :: post)).2,
      p.1 ≤ k + pre.length ∧
      (p.1 = k + pre.length →
        p.2 ∈ (processRow cfg (env (k + pre.length)) (k + pre.length) row).2) := by
  intro pre
  induction pre with
  | nil =>
    intro k row post _ hstop
    simp only [List.nil_append, List.length_nil, Nat.add_zero] at hstop ⊢
    by_cases hf : (processRow cfg (env k) k row).1 = RowOutcome.failed
    · rw [runFrom_cons_failed cfg env k row post hf]
      refine ⟨by rw [if_pos hf], ?_⟩
      intro p hp
      rcases List.mem_map.mp hp with ⟨e, he, rfl⟩
      exact ⟨Nat.le_refl k, fun _ => he⟩
    · have hp : (processRow cfg (env k) k row).1 = RowOutcome.paused := by
        rcases ho : (processRow cfg (env k) k row).1 <;> simp_all [outcomeOk]
      rw [runFrom_cons_paused cfg env k row post hp]
      refine ⟨by rw [if_neg hf], ?_⟩
      intro p hpp
      rcases List.mem_map.mp hpp with ⟨e, he, rfl⟩
      exact ⟨Nat.le_refl k, fun _ => he⟩
  | cons r pre ih =>
    intro k row post hpre hstop
    simp only [List.length_cons] at hstop ⊢
    have h0 : outcomeOk (processRow cfg (env k) k r).1 := by
      have := hpre 0 (Nat.succ_pos pre.length)
      simpa using this
    simp only [List.cons_append]
    rw [runFrom_cons_ok cfg env k r (pre ++ row :: post) h0]
    have hpre2 : ∀ i, ∀ hi : i < pre.length,
        outcomeOk (processRow cfg (env (k + 1 + i)) (k + 1 + i) (pre.get ⟨i, hi⟩)).1 := by
      intro i hi
      have heq : k + 1 + i = k + (i + 1) := by omega
      rw [heq]
      have := hpre (i + 1) (by simp only [List.length_cons]; omega)
      simpa using this
    have hstop2 : ¬ outcomeOk
        (processRow cfg (env (k + 1 + pre.length)) (k + 1 + pre.length) row).1 := by
      have heq : k + 1 + pre.length = k + (pre.length + 1) := by omega
      rw [heq]
      exact hstop
    rcases ih (k + 1) row post hpre2 hstop2 with ⟨hcode, hev⟩
    simp only [show k + 1 + pre.length = k + (pre.length + 1) from by omega] at hcode hev
    constructor
    · exact hcode
    · intro p hp
      rcases List.mem_append.mp hp with h1 | h2
      · rcases List.mem_map.mp h1 with ⟨e, he, rfl⟩
        refine ⟨by omega, fun habs => absurd habs (by omega)⟩
      · exact hev p h2

theorem jsGet_none_of_absent (row : Row) (k : String)
    (h : ∀ kv ∈ row, kv.1 ≠ k) : jsGet row k = none := by
  unfold jsGet
  rw [List.find?_eq_none.mpr]
  · rfl
  · intro kv hkv
    simp [h kv hkv]

theorem statusCell_ne_empty_key (row : Row) (hs : statusCell row ≠ "") :
    claimStatusKeyNonEmpty row = true := by
  unfold statusCell at hs
  unfold claimStatusKeyNonEmpty
  cases hg1 : jsGet row "STATUS" with
  | some v =>
    rw [hg1] at hs
    simp [List.any_cons, hg1, bne_iff_ne]
    exact Or.inl hs
  | none =>
    rw [hg1] at hs
    cases hg2 : jsGet row "Status" with
    | some v =>
      rw [hg2] at hs
      simp [List.any_cons, hg1, hg2, bne_iff_ne]
      exact Or.inl hs
    | none =>
      rw [hg2] at hs
      cases hg3 : jsGet row "status" with
      | some v =>
        rw [hg3] at hs
        simp [List.any_cons, hg1, hg2, hg3, bne_iff_ne]
        exact hs
      | none =>
        rw [hg3] at hs
        exact absurd rfl hs

/-- C1: a record whose status field (the STATUS/Status/status chain, trimmed) is
non-empty at the start of its iteration is skipped before any page-automation
call: the run contains no event tagged with that record's index and no status
write targeting its row, so its stored status is unchanged (idempotent reruns). -/
theorem c1_status_skip (cfg : Config) (env : Nat → RowEnv) (pre : List Row) (row : Row)
    (post : List Row) (hs : statusCell row ≠ "") :
    ∀ p ∈ (runRows cfg env (pre ++ row :: post)).2,
      p.1 ≠ pre.length ∧ ∀ v, p.2 ≠ Event.writeStatus pre.length v := by
  intro p hp
  have hsplit := runFrom_events_split cfg env pre 0 row post p hp
  simp only [Nat.zero_add] at hsplit
  have hmain : p.1 ≠ pre.length := by
    rcases hsplit with h | h
    · exact h
    · rw [processRow_skipStatus cfg (env pre.length) pre.length row hs] at h
      simp at h
  refine ⟨hmain, ?_⟩
  intro v hv
  have hmem : (p.1, Event.writeStatus pre.length v) ∈ (runRows cfg env (pre ++ row :: post)).2 := by
    rw [← hv]
    exact hp
  have htag := runFrom_writeStatus_tag cfg env (pre ++ row :: post) 0 p.1 pre.length v hmem
  exact hmain htag.symm

theorem c1_witness :
    statusCell rowDone ≠ "" ∧
    ∀ p ∈ (runRows cfgBooking envAllOk [rowDone, rowValid]).2,
      p.1 ≠ 0 ∧ ∀ v, p.2 ≠ Event.writeStatus 0 v :=
  ⟨by decide, c1_status_skip cfgBooking envAllOk [] rowDone [rowValid] (by decide)⟩

/-- C2: a record whose CVV, stripped to digits, has fewer than 3 characters
(and whose status field is empty) yields SkippedInvalid with no page events:
no navigation, no form fill, no submission, anywhere in the run. -/
theorem c2_cvv_skip (cfg : Config) (env : Nat → RowEnv) (pre : List Row) (row : Row)
    (post : List Row) (hs : statusCell row = "") (hc : (cvvDigitsEarly row).length < 3) :
    processRow cfg (env pre.length) pre.length row = (RowOutcome.skippedInvalid, []) ∧
    ∀ p ∈ (runRows cfg env (pre ++ row :: post)).2, p.1 ≠ pre.length := by
  refine ⟨processRow_skipInvalid cfg (env pre.length) pre.length row hs hc, ?_⟩
  intro p hp
  have hsplit := runFrom_events_split cfg env pre 0 row post p hp
  simp only [Nat.zero_add] at hsplit
  rcases hsplit with h | h
  · exact h
  · rw [processRow_skipInvalid cfg (env pre.length) pre.length row hs hc] at h
    simp at h

theorem c2_witness :
    statusCell rowShortCvv = "" ∧ (cvvDigitsEarly rowShortCvv).length < 3 ∧
    (processRow cfgBooking (envAllOk 0) 0 rowShortCvv = (RowOutcome.skippedInvalid, []) ∧
     ∀ p ∈ (runRows cfgBooking envAllOk [rowShortCvv, rowValid]).2, p.1 ≠ 0) :=
  ⟨by decide, by decide,
   c2_cvv_skip cfgBooking envAllOk [] rowShortCvv [rowValid] (by decide) (by decide)⟩

/-- C3: if one stage's condition is satisfied strictly before every other
stage's (none of the others is true at any tick up to the winner's first true
tick), raceStages returns that stage's name; nothing is assumed about the other
stages after that tick, so the detector does not wait for them. -/
theorem c3_race_first_wins (dom : DomTrace) (pre : List Stage) (s : Stage) (post : List Stage)
    (deadline t : Nat)
    (hwin : firstTrueTick dom s.cond deadline = some t)
    (hpre : ∀ s2 ∈ pre, ∀ u, u ≤ t → condTrue dom u s2.cond = false)
    (hpost : ∀ s2 ∈ post, ∀ u, u ≤ t → condTrue dom u s2.cond = false) :
    raceStages dom (pre ++ s :: post) deadline = some (Except.ok s.name) := by
  have ht := firstTrueTick_some_spec hwin
  have hgt : ∀ s2 : Stage, (∀ u, u ≤ t → condTrue dom u s2.cond = false) →
      t < (settleStage dom deadline s2).1 := by
    intro s2 hs2
    cases hf : firstTrueTick dom s2.cond deadline with
    | none => rw [settleStage_timeout hf]; exact ht.1
    | some u =>
      rw [settleStage_ok hf]
      have hu := firstTrueTick_some_spec hf
      by_contra hle
      push_neg at hle
      rw [hs2 u hle] at hu
      exact Bool.false_ne_true hu.2
  unfold raceStages
  rw [List.map_append, List.map_cons, settleStage_ok hwin]
  rw [pickFirstMin_strictMin (List.map (settleStage dom deadline) pre)
        (t, Except.ok s.name) (List.map (settleStage dom deadline) post) ?_ ?_]
  · rfl
  · intro y hy
    rcases List.mem_map.mp hy with ⟨s2, hs2, rfl⟩
    exact hgt s2 (hpre s2 hs2)
  · intro y hy
    rcases List.mem_map.mp hy with ⟨s2, hs2, rfl⟩
    exact hgt s2 (hpost s2 hs2)

theorem c3_witness :
    firstTrueTick domBFirst stageB.cond 10 = some 1 ∧
    (∀ s2 ∈ [stageA], ∀ u, u ≤ 1 → condTrue domBFirst u s2.cond = false) ∧
    raceStages domBFirst [stageA, stageB] 10 = some (Except.ok "B") :=
  ⟨by decide, by decide,
   c3_race_first_wins domBFirst [stageA] stageB [] 10 1 (by decide) (by decide) (by decide)⟩

/-- C7 counterexample: with no condition ever true, racing the two stages A and
B produces exactly the same Timeout error as racing stage A alone, so the error
cannot carry the set of stages (conditions) attempted: it only carries the
first stage's condition and the deadline. -/
theorem c7_counterexample :
    raceStages domNever [stageA, stageB] 3 =
      some (Except.error ⟨StageCond.selectors ["#a"], 3⟩) ∧
    raceStages domNever [stageA, stageB] 3 = raceStages domNever [stageA] 3 :=
  ⟨rfl, rfl⟩

/-- C7 amended: if no alternative of any stage becomes true before the
deadline, raceStages fails with a Timeout error carrying the deadline value and
the condition of the first stage in the list only (the first watcher to reject
wins the race); the other stages' conditions are not in the error. -/
theorem c7_amended (dom : DomTrace) (s0 : Stage) (rest : List Stage) (deadline : Nat)
    (hnone : ∀ s2 ∈ s0 :: rest, ∀ u, u < deadline → condTrue dom u s2.cond = false) :
    raceStages dom (s0 :: rest) deadline = some (Except.error ⟨s0.cond, deadline⟩) := by
  unfold raceStages
  rw [List.map_cons,
      settleStage_timeout (firstTrueTick_none_of dom s0.cond deadline
        (hnone s0 (List.mem_cons_self s0 rest)))]
  rw [pickFirstMin_head (deadline, Except.error ⟨s0.cond, deadline⟩)
        (List.map (settleStage dom deadline) rest) ?_]
  · rfl
  · intro y hy
    rcases List.mem_map.mp hy with ⟨s2, hs2, rfl⟩
    rw [settleStage_timeout (firstTrueTick_none_of dom s2.cond deadline
          (hnone s2 (List.mem_cons_of_mem s0 hs2)))]

theorem c7_amended_witness :
    (∀ s2 ∈ [stageA, stageB], ∀ u, u < 3 → condTrue domNever u s2.cond = false) ∧
    raceStages domNever [stageA, stageB] 3 = some (Except.error ⟨stageA.cond, 3⟩) :=
  ⟨by decide, c7_amended domNever stageA [stageB] 3 (by decide)⟩

/-- C4 counterexample: with a status node that never hydrates, both poll
attempts of row 0 time out, yet the run writes an empty status for row 0,
continues to row 1 (which also gets an empty status written) and exits with
code 0 - the double Timeout does not propagate and does not terminate the run. -/
theorem c4_counterexample :
    (runRows cfgBooking envNoStatus [rowValid, rowValid]).1 = some 0 ∧
    (0, Event.writeStatus 0 "") ∈ (runRows cfgBooking envNoStatus [rowValid, rowValid]).2 ∧
    (1, Event.writeStatus 1 "") ∈ (runRows cfgBooking envNoStatus [rowValid, rowValid]).2 := by
  decide

/-- C4 amended: when both result-poll attempts time out (the status node's
trimmed text is empty at every tick up to the deadline on both attempts), the
retry's error is swallowed: the row completes with an empty status written back
at its index, and the loop proceeds to the remaining rows. -/
theorem c4_amended (cfg : Config) (env : Nat → RowEnv) (k : Nat) (row : Row) (rest : List Row)
    (hs : statusCell row = "") (hc : ¬(cvvDigitsEarly row).length < 3)
    (hnav : (env k).navOk = true) (hcrit : (env k).criticalOk = true)
    (hfill : (env k).fillOk = true) (hrv : cfg.reviewMode = false)
    (hsub : (env k).submitOk = true) (hret : (env k).returnOk = true)
    (h1 : ∀ u, u ≤ cfg.statusWaitTicks → jsTrim ((env k).statusTrace1 u) = "")
    (h2 : ∀ u, u ≤ cfg.statusWaitTicks → jsTrim ((env k).statusTrace2 u) = "") :
    processRow cfg (env k) k row =
      (RowOutcome.completed,
       [Event.nav, Event.fillGuard, Event.fillFields, Event.submit,
        Event.pollStatus 1, Event.pollStatus 2, Event.writeStatus k "", Event.backToList]) ∧
    runFrom cfg env k (row :: rest) =
      ((runFrom cfg env (k + 1) rest).1,
       [Event.nav, Event.fillGuard, Event.fillFields, Event.submit,
        Event.pollStatus 1, Event.pollStatus 2, Event.writeStatus k "",
        Event.backToList].map (fun e => (k, e)) ++ (runFrom cfg env (k + 1) rest).2) := by
  have hrow := processRow_bothTimeout cfg (env k) k row hs hc hnav hcrit hfill hrv hsub hret h1 h2
  refine ⟨hrow, ?_⟩
  have hok : outcomeOk (processRow cfg (env k) k row).1 := by
    rw [hrow]
    simp [outcomeOk]
  rw [runFrom_cons_ok cfg env k row rest hok, hrow]

theorem c4_amended_witness :
    (∀ u, u ≤ cfgBooking.statusWaitTicks → jsTrim ((envNoStatus 0).statusTrace1 u) = "") ∧
    (processRow cfgBooking (envNoStatus 0) 0 rowValid =
      (RowOutcome.completed,
       [Event.nav, Event.fillGuard, Event.fillFields, Event.submit,
        Event.pollStatus 1, Event.pollStatus 2, Event.writeStatus 0 "", Event.backToList]) ∧
     runFrom cfgBooking envNoStatus 0 [rowValid, rowValid] =
       ((runFrom cfgBooking envNoStatus 1 [rowValid]).1,
        [Event.nav, Event.fillGuard, Event.fillFields, Event.submit,
         Event.pollStatus 1, Event.pollStatus 2, Event.writeStatus 0 "",
         Event.backToList].map (fun e => (0, e)) ++ (runFrom cfgBooking envNoStatus 1 [rowValid]).2)) :=
  ⟨by decide,
   c4_amended cfgBooking envNoStatus 0 rowValid [rowValid] (by decide) (by decide)
     rfl rfl rfl rfl rfl rfl (by decide) (by decide)⟩

/-- C5: when the rows before index i all continue normally and processing row i
fails with an unhandled error, the run aborts: the exit status is 1 and no
event in the whole run is tagged with an index beyond i, so no subsequent
record begins processing. -/
theorem c5_abort_on_failure (cfg : Config) (env : Nat → RowEnv) (pre : List Row) (row : Row)
    (post : List Row)
    (hpre : ∀ i, ∀ hi : i < pre.length,
      outcomeOk (processRow cfg (env i) i (pre.get ⟨i, hi⟩)).1)
    (hfail : (processRow cfg (env pre.length) pre.length row).1 = RowOutcome.failed) :
    (runRows cfg env (pre ++ row :: post)).1 = some 1 ∧
    ∀ p ∈ (runRows cfg env (pre ++ row :: post)).2, p.1 ≤ pre.length := by
  have hstop : ¬ outcomeOk (processRow cfg (env (0 + pre.length)) (0 + pre.length) row).1 := by
    simp only [Nat.zero_add]
    rw [hfail]
    intro hok
    exact hok.1 rfl
  have hpre0 : ∀ i, ∀ hi : i < pre.length,
      outcomeOk (processRow cfg (env (0 + i)) (0 + i) (pre.get ⟨i, hi⟩)).1 := by
    intro i hi
    simp only [Nat.zero_add]
    exact hpre i hi
  rcases runFrom_stop cfg env pre 0 row post hpre0 hstop with ⟨hcode, hev⟩
  simp only [Nat.zero_add] at hcode hev
  constructor
  · show (runFrom cfg env 0 (pre ++ row :: post)).1 = some 1
    rw [hcode, if_pos hfail]
  · intro p hp
    exact (hev p hp).1

theorem c5_witness :
    (processRow cfgBooking (envNavFail 0) 0 rowValid).1 = RowOutcome.failed ∧
    ((runRows cfgBooking envNavFail [rowValid, rowValid]).1 = some 1 ∧
     ∀ p ∈ (runRows cfgBooking envNavFail [rowValid, rowValid]).2, p.1 ≤ 0) :=
  ⟨by decide,
   c5_abort_on_failure cfgBooking envNavFail [] rowValid [rowValid]
     (fun i hi => absurd hi (Nat.not_lt_zero i)) (by decide)⟩

/-- C8: in review mode, once a record reaches form fill (both skip checks pass,
navigation and fill succeed) the orchestrator pauses forever: the process never
exits (exit status none), the record's only events are navigation, the submit
guard and the form fill - no submission, no result poll, no status write - and
no event of the run is tagged with any later record's index. -/
theorem c8_review_pause (cfg : Config) (env : Nat → RowEnv) (pre : List Row) (row : Row)
    (post : List Row) (hrv : cfg.reviewMode = true)
    (hpre : ∀ i, ∀ hi : i < pre.length,
      outcomeOk (processRow cfg (env i) i (pre.get ⟨i, hi⟩)).1)
    (hs : statusCell row = "") (hc : ¬(cvvDigitsEarly row).length < 3)
    (hnav : (env pre.length).navOk = true) (hcrit : (env pre.length).criticalOk = true)
    (hfill : (env pre.length).fillOk = true) :
    (runRows cfg env (pre ++ row :: post)).1 = none ∧
    ∀ p ∈ (runRows cfg env (pre ++ row :: post)).2,
      p.1 ≤ pre.length ∧
      (p.1 = pre.length →
        p.2 = Event.nav ∨ p.2 = Event.fillGuard ∨ p.2 = Event.fillFields) := by
  have hrow := processRow_paused cfg (env pre.length) pre.length row hrv hs hc hnav hcrit hfill
  have hstop : ¬ outcomeOk (processRow cfg (env (0 + pre.length)) (0 + pre.length) row).1 := by
    simp only [Nat.zero_add]
    rw [hrow]
    intro hok
    exact hok.2 rfl
  have hpre0 : ∀ i, ∀ hi : i < pre.length,
      outcomeOk (processRow cfg (env (0 + i)) (0 + i) (pre.get ⟨i, hi⟩)).1 := by
    intro i hi
    simp only [Nat.zero_add]
    exact hpre i hi
  rcases runFrom_stop cfg env pre 0 row post hpre0 hstop with ⟨hcode, hev⟩
  simp only [Nat.zero_add] at hcode hev
  constructor
  · show (runFrom cfg env 0 (pre ++ row :: post)).1 = none
    rw [hcode, hrow]
    simp
  · intro p hp
    rcases hev p hp with ⟨hle, himp⟩
    refine ⟨hle, fun hpe => ?_⟩
    have hin := himp hpe
    rw [hrow] at hin
    simpa using hin

theorem c8_witness :
    cfgBookingReview.reviewMode = true ∧
    ((runRows cfgBookingReview envAllOk [rowValid, rowValid]).1 = none ∧
     ∀ p ∈ (runRows cfgBookingReview envAllOk [rowValid, rowValid]).2,
       p.1 ≤ 0 ∧ (p.1 = 0 → p.2 = Event.nav ∨ p.2 = Event.fillGuard ∨ p.2 = Event.fillFields)) :=
  ⟨rfl,
   c8_review_pause cfgBookingReview envAllOk [] rowValid [rowValid] rfl
     (fun i hi => absurd hi (Nat.not_lt_zero i)) (by decide) (by decide) rfl rfl rfl⟩

/-- C6: if the card-number field's value stripped to digits is a proper prefix
of the expected digit string (expected = rest appended to it, rest non-empty),
the read-back correction types exactly the remaining suffix, and the typed
digits plus that suffix equal the full expected digit string. -/
theorem c6_readback_correction (typedFieldValue first4Raw last12Raw rest : String)
    (hsplit : expectedDigitsOf first4Raw last12Raw = stripNonDigits typedFieldValue ++ rest)
    (hproper : rest ≠ "") :
    readbackCorrection typedFieldValue (expectedDigitsOf first4Raw last12Raw) = some rest ∧
    stripNonDigits typedFieldValue ++ rest = expectedDigitsOf first4Raw last12Raw := by
  refine ⟨?_, hsplit.symm⟩
  have hrest : rest.data ≠ [] := by
    intro hd
    apply hproper
    cases rest with
    | mk data => simp at hd; rw [hd]
  have hdata : (expectedDigitsOf first4Raw last12Raw).data =
      (stripNonDigits typedFieldValue).data ++ rest.data := by
    rw [hsplit]; rfl
  have hlen : (expectedDigitsOf first4Raw last12Raw).length =
      (stripNonDigits typedFieldValue).length + rest.length := by
    show (expectedDigitsOf first4Raw last12Raw).data.length =
      (stripNonDigits typedFieldValue).data.length + rest.data.length
    rw [hdata, List.length_append]
  have hlt : (stripNonDigits typedFieldValue).length <
      (expectedDigitsOf first4Raw last12Raw).length := by
    have hpos : 0 < rest.length := by
      show 0 < rest.data.length
      exact List.length_pos.mpr hrest
    omega
  have hne : expectedDigitsOf first4Raw last12Raw ≠ "" := by
    intro he
    rw [he] at hdata
    have hnil := List.append_eq_nil.mp hdata.symm
    exact hrest hnil.2
  have hcond : (expectedDigitsOf first4Raw last12Raw != "" &&
      decide ((stripNonDigits typedFieldValue).length <
        (expectedDigitsOf first4Raw last12Raw).length)) = true := by
    simp [bne_iff_ne, hne, hlt]
  show (if expectedDigitsOf first4Raw last12Raw != "" &&
      decide ((stripNonDigits typedFieldValue).length <
        (expectedDigitsOf first4Raw last12Raw).length) then
      some (jsSliceFrom (expectedDigitsOf first4Raw last12Raw)
        (stripNonDigits typedFieldValue).length)
    else none) = some rest
  rw [hcond]
  simp only [if_true]
  congr 1
  show ((expectedDigitsOf first4Raw last12Raw).data.drop
    (stripNonDigits typedFieldValue).length).asString = rest
  rw [hdata]
  show (List.drop (stripNonDigits typedFieldValue).data.length
    ((stripNonDigits typedFieldValue).data ++ rest.data)).asString = rest
  rw [List.drop_left]
  rfl

theorem c6_witness :
    expectedDigitsOf "4111" "111111111111" = stripNonDigits "4111" ++ "111111111111" ∧
    ("111111111111" : String) ≠ "" ∧
    readbackCorrection "4111" (expectedDigitsOf "4111" "111111111111") = some "111111111111" ∧
    (stripNonDigits "4111").length = 4 ∧ ("111111111111" : String).length = 12 ∧
    (expectedDigitsOf "4111" "111111111111").length = 16 :=
  ⟨by decide, by decide,
   (c6_readback_correction "4111" "4111" "111111111111" "111111111111"
      (by decide) (by decide)).1,
   by decide, by decide, by decide⟩

/-- C9 counterexample: in the record whose exact key STATUS is present but
empty while the exact key Status holds "done", claim C9's iff fails: a key
among the three exact spellings holds a non-empty trimmed value, yet the
nullish-coalescing chain stops at the empty STATUS and the record is not
status-skipped. -/
theorem c9_counterexample :
    ¬(((processRow cfgBooking (envAllOk 0) 0 rowShadowedStatus).1 = RowOutcome.skippedStatus) ↔
      claimStatusKeyNonEmpty rowShadowedStatus = true) := by
  decide

/-- C9 amended: the skip check consults only the exact keys STATUS, Status,
status through nullish coalescing. Whenever the skip triggers, one of those
exact keys holds a value non-empty after trimming; and a record containing none
of those exact keys is never status-skipped, whatever its other headers (any
other casing or whitespace) hold. The converse of the original iff fails: an
earlier present-but-empty key in the chain shadows a later non-empty one. -/
theorem c9_amended (cfg : Config) (env : RowEnv) (idx : Nat) (row : Row) :
    ((processRow cfg env idx row).1 = RowOutcome.skippedStatus →
      claimStatusKeyNonEmpty row = true) ∧
    ((∀ kv ∈ row, kv.1 ≠ "STATUS" ∧ kv.1 ≠ "Status" ∧ kv.1 ≠ "status") →
      (processRow cfg env idx row).1 ≠ RowOutcome.skippedStatus) := by
  constructor
  · intro h
    by_cases hs : statusCell row = ""
    · exact absurd h (processRow_empty_status_not_skipStatus cfg env idx row hs)
    · exact statusCell_ne_empty_key row hs
  · intro habs
    apply processRow_empty_status_not_skipStatus
    have h1 : jsGet row "STATUS" = none :=
      jsGet_none_of_absent row "STATUS" (fun kv hkv => (habs kv hkv).1)
    have h2 : jsGet row "Status" = none :=
      jsGet_none_of_absent row "Status" (fun kv hkv => (habs kv hkv).2.1)
    have h3 : jsGet row "status" = none :=
      jsGet_none_of_absent row "status" (fun kv hkv => (habs kv hkv).2.2)
    unfold statusCell
    rw [h1, h2, h3]
    rfl

theorem c9_amended_witness :
    (∀ kv ∈ rowWeirdHeader, kv.1 ≠ "STATUS" ∧ kv.1 ≠ "Status" ∧ kv.1 ≠ "status") ∧
    (processRow cfgBooking (envAllOk 0) 0 rowWeirdHeader).1 ≠ RowOutcome.skippedStatus :=
  ⟨by decide, (c9_amended cfgBooking (envAllOk 0) 0 rowWeirdHeader).2 (by decide)⟩

/-- C10: review mode is enabled iff the argument list contains "--review", or
contains "--agoda" and not "--no-review"; in particular the agoda brand
defaults to review mode, loses it only under an explicit "--no-review", and the
booking brand (no "--agoda") defaults to auto-submit. -/
theorem c10_review_mode_iff (argv : List String) :
    (REVIEW_MODE argv = true ↔
      ("--review" ∈ argv ∨ ("--agoda" ∈ argv ∧ "--no-review" ∉ argv))) ∧
    REVIEW_MODE ["node", "server.js", "--agoda"] = true ∧
    REVIEW_MODE ["node", "server.js", "--agoda", "--no-review"] = false ∧
    REVIEW_MODE ["node", "server.js"] = false := by
  refine ⟨?_, by decide, by decide, by decide⟩
  have h1 : REVIEW_MODE argv =
      (argv.contains "--review" ||
        ((if argv.contains "--agoda" then "agoda" else "booking") == "agoda" &&
          !argv.contains "--no-review")) := rfl
  by_cases hrev : "--review" ∈ argv
  · have hb : argv.contains "--review" = true := List.elem_iff.mpr hrev
    rw [h1, hb]
    simp [hrev]
  · have hb : argv.contains "--review" = false := by
      rw [Bool.eq_false_iff]
      intro hc
      exact hrev (List.elem_iff.mp hc)
    rw [h1, hb]
    by_cases hag : "--agoda" ∈ argv
    · have hba : argv.contains "--agoda" = true := List.elem_iff.mpr hag
      rw [hba]
      by_cases hnr : "--no-review" ∈ argv
      · have hbn : argv.contains "--no-review" = true := List.elem_iff.mpr hnr
        rw [hbn]
        simp [hrev, hag, hnr]
      · have hbn : argv.contains "--no-review" = false := by
          rw [Bool.eq_false_iff]
          intro hc
          exact hnr (List.elem_iff.mp hc)
        rw [hbn]
        simp [hrev, hag, hnr]
    · have hba : argv.contains "--agoda" = false := by
        rw [Bool.eq_false_iff]
        intro hc
        exact hag (List.elem_iff.mp hc)
      rw [hba]
      simp [hrev, hag]
